import Mathlib

/-!
A shallow embedding of `src/monitor.py` (a CROUS housing-listings monitor):
the fetch retry loop (`fetch_html`), the state store (`load_state`), and the
per-run reconciliation body of `main` (`runMain` below), together with the
numeric conversion Python's `int` performs on listing identifiers (`pyInt?`)
and the `sorted(-, key=int)` sorting step (`sortByInt`).  Machine-level
concerns (HTTP, the file system, the Telegram transport, the clock) are made
explicit parameters: attempt outcomes, the loaded record and the notification
outcome are inputs, and a run returns the ordered trace of its side effects
(state saves and notification attempts) plus how it ended.

Python sets are represented by duplicate-free lists carrying one enumeration
of the set; every theorem that depends on order either fixes ties or holds
for any enumeration.
-/

/-- Whitespace stripped by Python's `int(str)` around the digits (ASCII
subset; identifiers in this program are ASCII, produced by regexes over the
page text). -/
def isPySpace (c : Char) : Bool :=
  c = ' ' || c = '\t' || c = '\n' || c = '\r' || c = '\x0b' || c = '\x0c'

/-- After the first digit, Python's `int` accepts further digits with single
underscores allowed only between digits. -/
def restDigits : List Char → Bool
  | [] => true
  | c :: r =>
    if c = '_' then
      match r with
      | [] => false
      | d :: r2 => d.isDigit && restDigits r2
    else
      c.isDigit && restDigits r

/-- Numeric value of a digit list (underscores already removed). -/
def digitsVal (l : List Char) : Nat :=
  l.foldl (fun n c => 10 * n + (c.toNat - 48)) 0

/-- The digit body of a Python integer literal: nonempty, starting with a
digit, underscores only singly and between digits. -/
def bodyVal? (l : List Char) : Option Nat :=
  match l with
  | [] => none
  | c :: _r =>
    if c.isDigit && restDigits l then some (digitsVal (l.filter fun x => x ≠ '_'))
    else none

/-- The whitespace stripping `int(str)` performs on both ends. -/
def stripPy (s : String) : List Char :=
  ((s.toList.dropWhile isPySpace).reverse.dropWhile isPySpace).reverse

/-- Python's `int(s)` as the source's `key=int` applies it to an id string:
optional surrounding whitespace, an optional sign, then a digit body.
`none` models the `ValueError` Python raises on anything else. -/
def pyInt? (s : String) : Option Int :=
  match stripPy s with
  | [] => none
  | c :: r =>
    if c = '+' then (bodyVal? r).map fun n => (n : Int)
    else if c = '-' then (bodyVal? r).map fun n => -(n : Int)
    else (bodyVal? (c :: r)).map fun n => (n : Int)

/-- A nonempty string of decimal digits: the identifier shape the source's
`ACCOM_RE` capture group `(\d+)` produces. -/
def isDigitString (s : String) : Bool :=
  !s.toList.isEmpty && s.toList.all Char.isDigit

/-- The sort key of `sorted(-, key=int)`; a total stand-in for `int`, only
used under an `allIntable` guard. -/
def intKey (s : String) : Int := (pyInt? s).getD 0

/-- Every element convertible by `int`: the condition under which Python's
`sorted(l, key=int)` does not raise. -/
def allIntable (l : List String) : Bool := l.all fun s => (pyInt? s).isSome

instance : DecidableRel fun (a b : String) => intKey a ≤ intKey b :=
  fun a b => inferInstanceAs (Decidable (intKey a ≤ intKey b))

instance : IsTotal String fun a b => intKey a ≤ intKey b :=
  ⟨fun a b => Int.le_total (intKey a) (intKey b)⟩

instance : IsTrans String fun a b => intKey a ≤ intKey b :=
  ⟨fun _ _ _ h1 h2 => le_trans h1 h2⟩

/-- Python's `sorted(l, key=int)` on a given enumeration `l`: a stable sort
by numeric key (ties keep enumeration order, as in Python). -/
def sortByInt (l : List String) : List String :=
  l.insertionSort fun a b => intKey a ≤ intKey b

/-- `sorted(l, key=int)` with Python's failure behavior: `none` when some
element is not convertible (the raised `ValueError` aborts the run). -/
def sortByInt? (l : List String) : Option (List String) :=
  if allIntable l then some (sortByInt l) else none

/-- The fields of the persisted record that `main` reads, with the defaults
`state.get` supplies: `initialized` already coerced by `bool(...)`,
`seen_ids` a list of strings per the schema, `last_count` and
`last_checked_epoch` possibly absent (absent in the default record). -/
structure StateRec where
  initialized : Bool
  seen_ids : List String
  last_count : Option Int
  last_checked_epoch : Option Int
deriving DecidableEq

/-- The two Telegram messages, abstracted from their rendered text to the
data they carry: the baseline confirmation with the displayed current total,
and the update message with its optional count change and the added and
removed id lists (in that fixed order in the rendering). -/
inductive Msg
  | baseline (current : Int)
  | update (countChanged : Option (Int × Int)) (added : List String) (removed : List String)
deriving DecidableEq

/-- One observable side effect of a run: a `save_state` write or a `tg_send`
attempt. -/
inductive Event
  | save (st : StateRec)
  | notify (m : Msg)
deriving DecidableEq

/-- How a run ends early: a `ValueError` from `int()` during sorting, or an
exception from `tg_send` (notification transport failure). -/
inductive RunErr
  | valueError
  | notifyError
deriving DecidableEq

/-- A decoded JSON value as `json.load` returns it (Python dict, list, str,
int, bool, None).  Floats do not occur in the records this program writes
and are not modeled.  An object carries its key-value pairs with the unique
keys of the constructed Python dict. -/
inductive JVal
  | jnull
  | jbool (b : Bool)
  | jint (n : Int)
  | jstr (s : String)
  | jlist (elems : List JVal)
  | jobj (fields : List (String × JVal))

/-- The state file as `load_state` finds it: absent, present but rejected
by `json.load` (a decode error), or successfully decoded to a JSON value —
whether or not that value matches the PersistedState schema. -/
inductive StoredFile
  | absent
  | invalidJson
  | content (v : JVal)

/-- The fatal error when `json.load` rejects an existing record. -/
inductive LoadErr
  | stateCorrupt
deriving DecidableEq

/-- The default record `load_state` builds when no file exists (line 41),
as the JSON value of that Python dict literal. -/
def defaultStateJson : JVal :=
  .jobj [("initialized", .jbool false), ("seen_ids", .jlist []), ("last_count", .jnull)]

/-- `load_state` (lines 39-43): the default dict when no file exists; the
decode failure propagated, not swallowed, when `json.load` rejects the
file's contents; the decoded value returned unchanged otherwise — no schema
validation happens here, so any valid JSON, conforming or not, comes back
without error. -/
def load_state : StoredFile → Except LoadErr JVal
  | .absent => .ok defaultStateJson
  | .invalidJson => .error .stateCorrupt
  | .content v => .ok v

/-- Python truthiness, `bool(x)`, on a decoded JSON value. -/
def pyTruthy : JVal → Bool
  | .jnull => false
  | .jbool b => b
  | .jint n => decide (n ≠ 0)
  | .jstr s => decide (s ≠ "")
  | .jlist elems => !elems.isEmpty
  | .jobj fields => !fields.isEmpty

/-- `dict.get(k, d)` on a decoded object's fields. -/
def jLookupD (fields : List (String × JVal)) (k : String) (d : JVal) : JVal :=
  match fields.find? (fun p => decide (p.1 = k)) with
  | some p => p.2
  | none => d

/-- How the read phase of `main` fails: `state.get(...)` on a record that
is valid JSON but not an object raises an AttributeError. -/
inductive ReadErr
  | attributeError
deriving DecidableEq

/-- Lines 88-90: the three reads `main` performs on the loaded record, each
with its default, the flag coerced by `bool(...)`: `seen_ids` and
`last_count` as raw JSON values, in that order; an attribute error when the
record is not an object. -/
def readRun (v : JVal) : Except ReadErr (JVal × JVal × Bool) :=
  match v with
  | .jobj fields =>
    .ok (jLookupD fields "seen_ids" (.jlist []),
         jLookupD fields "last_count" .jnull,
         pyTruthy (jLookupD fields "initialized" (.jbool false)))
  | _ => .error .attributeError

/-- Decode of a read-out ids value into the string-typed shape the run
model uses: a JSON list of strings.  Python would also iterate other
shapes (e.g. the characters of a string); those fall outside the typed
fragment the run model covers and no theorem claims anything about them. -/
def decodeIds? (v : JVal) : Option (List String) :=
  match v with
  | .jlist elems => elems.mapM fun e => match e with | .jstr s => some s | _ => none
  | _ => none

/-- Decode of a read-out count value into the schema's integer-or-null
shape; other values (e.g. a string count) flow through `main` unchecked and
are outside the typed fragment the run model covers. -/
def decodeCount? (v : JVal) : Option (Option Int) :=
  match v with
  | .jnull => some none
  | .jint n => some (some n)
  | _ => none

/-- Line 109: a count change is rendered iff both counts are present and
numerically different, reported as (old, new). -/
def countChange (count_old count_now : Option Int) : Option (Int × Int) :=
  match count_old, count_now with
  | some co, some cn => if cn ≠ co then some (co, cn) else none
  | _, _ => none

/-- `ids_now - ids_old` before sorting (line 104), on given enumerations. -/
def newCandidates (ids_now ids_old : List String) : List String :=
  ids_now.filter fun s => !decide (s ∈ ids_old)

/-- `ids_old - ids_now` before sorting (line 105). -/
def removedCandidates (ids_now ids_old : List String) : List String :=
  ids_old.filter fun s => !decide (s ∈ ids_now)

/-- Lines 95 and 124: `sorted(ids_now, key=int) if ids_now else []`. -/
def seenSorted? (ids_now : List String) : Option (List String) :=
  if ids_now.isEmpty then some [] else sortByInt? ids_now

/-- Lines 93-102, the baseline branch of `main`: build the new record from
the snapshot with `initialized` set, save it, then send the one confirmation
message (whose failure aborts the run after the save). -/
def runInit (ids_now : List String) (count_now : Option Int) (now : Int)
    (notifyOk : Bool) : List Event × Option RunErr :=
  match seenSorted? ids_now with
  | none => ([], some .valueError)
  | some seen' =>
    ([.save ⟨true, seen', count_now, some now⟩,
      .notify (.baseline (count_now.getD (ids_now.length : Int)))],
     if notifyOk then none else some .notifyError)

/-- Lines 104-127, the initialized branch of `main`: compute the sorted
added/removed lists, assemble the message parts, send the update message if
any part is nonempty (`tg_send` before the save: its failure aborts the run
with no state write), then rebuild and save the record from the snapshot. -/
def runUpdate (ids_now : List String) (count_now : Option Int)
    (state : StateRec) (notifyOk : Bool) (now : Int) : List Event × Option RunErr :=
  let ids_old := state.seen_ids.dedup
  match sortByInt? (newCandidates ids_now ids_old) with
  | none => ([], some .valueError)
  | some new_ids =>
  match sortByInt? (removedCandidates ids_now ids_old) with
  | none => ([], some .valueError)
  | some removed_ids =>
  let cc := countChange state.last_count count_now
  let hasParts := cc.isSome || !new_ids.isEmpty || !removed_ids.isEmpty
  let msg := Msg.update cc new_ids removed_ids
  if hasParts && !notifyOk then
    ([.notify msg], some .notifyError)
  else
    match seenSorted? ids_now with
    | none => ((if hasParts then [.notify msg] else []), some .valueError)
    | some seen' =>
      ((if hasParts then [.notify msg] else []) ++
        [.save ⟨state.initialized, seen', count_now, some now⟩], none)

/-- The body of `main` after fetch and extraction: dispatch on the
`initialized` flag (line 93) into the baseline or the update branch. -/
def runMain (ids_now : List String) (count_now : Option Int)
    (state : StateRec) (notifyOk : Bool) (now : Int) : List Event × Option RunErr :=
  if state.initialized then runUpdate ids_now count_now state notifyOk now
  else runInit ids_now count_now now notifyOk

/-- The states a trace saved, in order. -/
def savesOf (evs : List Event) : List StateRec :=
  evs.filterMap fun e => match e with | .save st => some st | _ => none

/-- The messages a trace attempted to send, in order. -/
def notifiesOf (evs : List Event) : List Msg :=
  evs.filterMap fun e => match e with | .notify m => some m | _ => none

/-- What a `load_state` after the run returns: the last saved record, or the
prior one when the run saved nothing. -/
def loadAfter (prior : StateRec) (evs : List Event) : StateRec :=
  ((savesOf evs).getLast?).getD prior

/-- Lines 49-60, `fetch_html`'s loop: `n` remaining attempts, `i` the index
of the current one; on failure remember the exception, sleep `2 * (i + 1)`,
and continue; when attempts run out re-raise the remembered exception.
Returns the recorded sleep durations and the outcome (the error is `none`
only in the unreachable raise-before-any-attempt case). -/
def fetchGo {E : Type} (att : Nat → Except E String) :
    Nat → Nat → List Nat → Option E → List Nat × Except (Option E) String
  | _, 0, sleeps, last => (sleeps, .error last)
  | i, n + 1, sleeps, _last =>
    match att i with
    | .ok t => (sleeps, .ok t)
    | .error e => fetchGo att (i + 1) n (sleeps ++ [2 * (i + 1)]) (some e)

/-- `fetch_html`: three sequential attempts starting from attempt index 0. -/
def fetch_html {E : Type} (att : Nat → Except E String) :
    List Nat × Except (Option E) String :=
  fetchGo att 0 3 [] none

/-! ### Facts about the numeric conversion -/

theorem isPySpace_of_digit {c : Char} (h : c.isDigit = true) : isPySpace c = false := by
  have h1 : c ≠ ' ' := fun he => by subst he; exact absurd h (by decide)
  have h2 : c ≠ '\t' := fun he => by subst he; exact absurd h (by decide)
  have h3 : c ≠ '\n' := fun he => by subst he; exact absurd h (by decide)
  have h4 : c ≠ '\r' := fun he => by subst he; exact absurd h (by decide)
  have h5 : c ≠ '\x0b' := fun he => by subst he; exact absurd h (by decide)
  have h6 : c ≠ '\x0c' := fun he => by subst he; exact absurd h (by decide)
  simp [isPySpace, h1, h2, h3, h4, h5, h6]

theorem dropWhile_eq_self_of_not {p : Char → Bool} {m : List Char}
    (h : ∀ c ∈ m, p c = false) : m.dropWhile p = m := by
  cases m with
  | nil => rfl
  | cons c r => simp [List.dropWhile_cons, h c (List.mem_cons_self c r)]

theorem stripPy_of_digits {s : String} (h : ∀ c ∈ s.toList, c.isDigit = true) :
    stripPy s = s.toList := by
  have hsp : ∀ c ∈ s.toList, isPySpace c = false := fun c hc => isPySpace_of_digit (h c hc)
  have h1 : s.toList.dropWhile isPySpace = s.toList := dropWhile_eq_self_of_not hsp
  have h2 : s.toList.reverse.dropWhile isPySpace = s.toList.reverse :=
    dropWhile_eq_self_of_not fun c hc => hsp c (List.mem_reverse.mp hc)
  rw [stripPy, h1, h2, List.reverse_reverse]

theorem restDigits_of_digits {m : List Char} (h : ∀ c ∈ m, c.isDigit = true) :
    restDigits m = true := by
  induction m with
  | nil => rfl
  | cons c r ih =>
    have hc := h c (List.mem_cons_self c r)
    have hne : c ≠ '_' := fun he => by subst he; exact absurd hc (by decide)
    rw [restDigits.eq_def]
    simp [hne, hc, ih fun d hd => h d (List.mem_cons_of_mem c hd)]

theorem pyInt?_isSome_of_digits {s : String} (h : isDigitString s = true) :
    (pyInt? s).isSome = true := by
  rw [isDigitString, Bool.and_eq_true] at h
  obtain ⟨hne, hall⟩ := h
  have hall' : ∀ c ∈ s.toList, c.isDigit = true := by
    simpa [List.all_eq_true] using hall
  rw [pyInt?, stripPy_of_digits hall']
  cases hl : s.toList with
  | nil => rw [hl] at hne; simp at hne
  | cons c r =>
    have hc : c.isDigit = true := hall' c (by rw [hl]; exact List.mem_cons_self c r)
    have hp : c ≠ '+' := fun he => by subst he; exact absurd hc (by decide)
    have hm : c ≠ '-' := fun he => by subst he; exact absurd hc (by decide)
    have hall2 : ∀ d ∈ c :: r, d.isDigit = true := fun d hd => hall' d (by rw [hl]; exact hd)
    simp [hp, hm, bodyVal?, hc, restDigits_of_digits hall2]

theorem allIntable_iff {l : List String} :
    allIntable l = true ↔ ∀ s ∈ l, (pyInt? s).isSome = true := by
  rw [allIntable, List.all_eq_true]

theorem allIntable_of_digits {l : List String} (h : ∀ s ∈ l, isDigitString s = true) :
    allIntable l = true :=
  allIntable_iff.mpr fun s hs => pyInt?_isSome_of_digits (h s hs)

theorem allIntable_of_sub {l1 l2 : List String} (hsub : ∀ s ∈ l2, s ∈ l1)
    (h : allIntable l1 = true) : allIntable l2 = true :=
  allIntable_iff.mpr fun s hs => allIntable_iff.mp h s (hsub s hs)

/-! ### Facts about the sorting step -/

theorem sortByInt_perm (l : List String) : (sortByInt l).Perm l :=
  List.perm_insertionSort _ l

theorem sortByInt_sorted (l : List String) :
    (sortByInt l).Sorted fun a b => intKey a ≤ intKey b :=
  List.sorted_insertionSort _ l

theorem sortByInt_mem {l : List String} {a : String} :
    a ∈ sortByInt l ↔ a ∈ l := (sortByInt_perm l).mem_iff

theorem sortByInt_nodup {l : List String} (h : l.Nodup) : (sortByInt l).Nodup :=
  (sortByInt_perm l).nodup_iff.mpr h

theorem sortByInt_toFinset (l : List String) : (sortByInt l).toFinset = l.toFinset := by
  ext a
  simp [List.mem_toFinset, sortByInt_mem]

theorem sortByInt?_eq_some {l : List String} (h : allIntable l = true) :
    sortByInt? l = some (sortByInt l) := by
  rw [sortByInt?, if_pos h]

theorem sortByInt_nil : sortByInt [] = [] := rfl

theorem seenSorted?_eq_some {l : List String} (h : allIntable l = true) :
    seenSorted? l = some (sortByInt l) := by
  by_cases he : l.isEmpty
  · have : l = [] := by simpa [List.isEmpty_iff] using he
    subst this
    rfl
  · rw [seenSorted?, if_neg (by simpa using he), sortByInt?_eq_some h]

/-- Strictly ascending in numeric key. -/
def StrictAscKey (l : List String) : Prop :=
  l.Pairwise fun a b => intKey a < intKey b

theorem sortByInt_strictAsc {l : List String} (hnd : l.Nodup)
    (hinj : ∀ a ∈ l, ∀ b ∈ l, intKey a = intKey b → a = b) :
    StrictAscKey (sortByInt l) := by
  have hs : (sortByInt l).Pairwise fun a b => intKey a ≤ intKey b := sortByInt_sorted l
  have hnd' : (sortByInt l).Pairwise fun a b => a ≠ b := sortByInt_nodup hnd
  refine List.Pairwise.imp_of_mem ?_ (hs.and hnd')
  intro a b ha hb hab
  exact lt_of_le_of_ne hab.1 fun he =>
    hab.2 (hinj a (sortByInt_mem.mp ha) b (sortByInt_mem.mp hb) he)

/-! ### The run on convertible inputs: shape lemmas -/

/-- The sorted added list of an initialized run (line 104). -/
def addedSorted (ids_now : List String) (state : StateRec) : List String :=
  sortByInt (newCandidates ids_now state.seen_ids.dedup)

/-- The sorted removed list of an initialized run (line 105). -/
def removedSorted (ids_now : List String) (state : StateRec) : List String :=
  sortByInt (removedCandidates ids_now state.seen_ids.dedup)

/-- Whether some message part is nonempty (line 121's `if parts:`). -/
def hasPartsOf (ids_now : List String) (count_now : Option Int) (state : StateRec) : Bool :=
  (countChange state.last_count count_now).isSome
    || !(addedSorted ids_now state).isEmpty
    || !(removedSorted ids_now state).isEmpty

/-- The update message of an initialized run. -/
def updateMsg (ids_now : List String) (count_now : Option Int) (state : StateRec) : Msg :=
  .update (countChange state.last_count count_now)
    (addedSorted ids_now state) (removedSorted ids_now state)

/-- The record an initialized run saves (lines 124-127). -/
def newStateOf (ids_now : List String) (count_now : Option Int) (state : StateRec)
    (now : Int) : StateRec :=
  ⟨state.initialized, sortByInt ids_now, count_now, some now⟩

theorem runInit_eq {ids_now : List String} (count_now : Option Int) (now : Int)
    (notifyOk : Bool) (h : allIntable ids_now = true) :
    runInit ids_now count_now now notifyOk =
      ([.save ⟨true, sortByInt ids_now, count_now, some now⟩,
        .notify (.baseline (count_now.getD (ids_now.length : Int)))],
       if notifyOk then none else some .notifyError) := by
  rw [runInit, seenSorted?_eq_some h]

theorem runUpdate_eq {ids_now : List String} {count_now : Option Int} {state : StateRec}
    (notifyOk : Bool) (now : Int)
    (hall : allIntable (ids_now ++ state.seen_ids) = true) :
    runUpdate ids_now count_now state notifyOk now =
      (if hasPartsOf ids_now count_now state && !notifyOk then
        ([.notify (updateMsg ids_now count_now state)], some .notifyError)
      else
        ((if hasPartsOf ids_now count_now state
            then [.notify (updateMsg ids_now count_now state)] else []) ++
          [.save (newStateOf ids_now count_now state now)], none)) := by
  have h1 : allIntable ids_now = true :=
    allIntable_of_sub (fun s hs => List.mem_append.mpr (Or.inl hs)) hall
  have h2 : allIntable state.seen_ids = true :=
    allIntable_of_sub (fun s hs => List.mem_append.mpr (Or.inr hs)) hall
  have hnew : allIntable (newCandidates ids_now state.seen_ids.dedup) = true :=
    allIntable_of_sub (fun s hs => (List.mem_filter.mp hs).1) h1
  have hrem : allIntable (removedCandidates ids_now state.seen_ids.dedup) = true :=
    allIntable_of_sub (fun s hs => List.mem_dedup.mp (List.mem_filter.mp hs).1) h2
  rw [runUpdate, sortByInt?_eq_some hnew, sortByInt?_eq_some hrem]
  simp only [seenSorted?_eq_some h1]
  rfl

theorem save_runInit {ids_now : List String} {count_now : Option Int} {now : Int}
    {notifyOk : Bool} {st : StateRec}
    (h : Event.save st ∈ (runInit ids_now count_now now notifyOk).1) :
    ∃ seen', seenSorted? ids_now = some seen' ∧ st = ⟨true, seen', count_now, some now⟩ := by
  rw [runInit] at h
  cases hs : seenSorted? ids_now with
  | none => rw [hs] at h; simp at h
  | some seen' =>
    rw [hs] at h
    simp only [List.mem_cons, List.not_mem_nil, or_false] at h
    rcases h with h | h
    · exact ⟨seen', rfl, by injection h⟩
    · exact absurd h (by simp)

theorem save_runUpdate {ids_now : List String} {count_now : Option Int} {state : StateRec}
    {notifyOk : Bool} {now : Int} {st : StateRec}
    (h : Event.save st ∈ (runUpdate ids_now count_now state notifyOk now).1) :
    ∃ seen', seenSorted? ids_now = some seen' ∧
      st = ⟨state.initialized, seen', count_now, some now⟩ := by
  rw [runUpdate] at h
  cases h1 : sortByInt? (newCandidates ids_now state.seen_ids.dedup) with
  | none => rw [h1] at h; simp at h
  | some new_ids =>
    rw [h1] at h
    cases h2 : sortByInt? (removedCandidates ids_now state.seen_ids.dedup) with
    | none => rw [h2] at h; simp at h
    | some removed_ids =>
      rw [h2] at h
      simp only [] at h
      split at h
      · simp at h
      · cases hs : seenSorted? ids_now with
        | none =>
          rw [hs] at h
          split at h <;> simp_all
        | some seen' =>
          rw [hs] at h
          refine ⟨seen', rfl, ?_⟩
          rcases List.mem_append.mp h with h' | h'
          · split at h' <;> simp at h'
          · simpa using h'

theorem notify_runInit {ids_now : List String} {count_now : Option Int} {now : Int}
    {notifyOk : Bool} {m : Msg}
    (h : Event.notify m ∈ (runInit ids_now count_now now notifyOk).1) :
    m = .baseline (count_now.getD (ids_now.length : Int)) := by
  rw [runInit] at h
  cases hs : seenSorted? ids_now with
  | none => rw [hs] at h; simp at h
  | some seen' =>
    rw [hs] at h
    simp only [List.mem_cons, List.not_mem_nil, or_false] at h
    rcases h with h | h
    · exact absurd h (by simp)
    · injection h

theorem notify_runUpdate {ids_now : List String} {count_now : Option Int} {state : StateRec}
    {notifyOk : Bool} {now : Int} {m : Msg}
    (h : Event.notify m ∈ (runUpdate ids_now count_now state notifyOk now).1) :
    ∃ new_ids removed_ids,
      sortByInt? (newCandidates ids_now state.seen_ids.dedup) = some new_ids ∧
      sortByInt? (removedCandidates ids_now state.seen_ids.dedup) = some removed_ids ∧
      m = .update (countChange state.last_count count_now) new_ids removed_ids := by
  rw [runUpdate] at h
  cases h1 : sortByInt? (newCandidates ids_now state.seen_ids.dedup) with
  | none => rw [h1] at h; simp at h
  | some new_ids =>
    rw [h1] at h
    cases h2 : sortByInt? (removedCandidates ids_now state.seen_ids.dedup) with
    | none => rw [h2] at h; simp at h
    | some removed_ids =>
      rw [h2] at h
      refine ⟨new_ids, removed_ids, rfl, rfl, ?_⟩
      simp only [] at h
      split at h
      · simpa using h
      · cases hs : seenSorted? ids_now with
        | none =>
          rw [hs] at h
          split at h <;> simp_all
        | some seen' =>
          rw [hs] at h
          rcases List.mem_append.mp h with h' | h'
          · split at h' <;> simp_all
          · simp at h'

/-! ### Set-level facts about the diff step and trace helpers -/

theorem newCandidates_toFinset (ids_now seen : List String) :
    (newCandidates ids_now seen.dedup).toFinset = ids_now.toFinset \ seen.toFinset := by
  ext a
  simp [newCandidates, List.mem_filter, List.mem_dedup]

theorem removedCandidates_toFinset (ids_now seen : List String) :
    (removedCandidates ids_now seen.dedup).toFinset = seen.toFinset \ ids_now.toFinset := by
  ext a
  simp [removedCandidates, List.mem_filter, List.mem_dedup]

theorem newCandidates_nodup {ids_now : List String} (h : ids_now.Nodup)
    (ids_old : List String) : (newCandidates ids_now ids_old).Nodup :=
  h.filter _

theorem removedCandidates_nodup (ids_now seen : List String) :
    (removedCandidates ids_now seen.dedup).Nodup :=
  seen.nodup_dedup.filter _

theorem newCandidates_eq_nil {ids_now seen : List String}
    (h : ids_now.toFinset = seen.toFinset) :
    newCandidates ids_now seen.dedup = [] := by
  rw [newCandidates, List.filter_eq_nil_iff]
  intro a ha
  have : a ∈ seen.toFinset := by rw [← h]; exact List.mem_toFinset.mpr ha
  simp [List.mem_dedup, List.mem_toFinset.mp this]

theorem removedCandidates_eq_nil {ids_now seen : List String}
    (h : ids_now.toFinset = seen.toFinset) :
    removedCandidates ids_now seen.dedup = [] := by
  rw [removedCandidates, List.filter_eq_nil_iff]
  intro a ha
  have : a ∈ ids_now.toFinset := by
    rw [h]; exact List.mem_toFinset.mpr (List.mem_dedup.mp ha)
  simp [List.mem_toFinset.mp this]

theorem countChange_self (co : Option Int) : countChange co co = none := by
  cases co <;> simp [countChange]

theorem savesOf_run_shape (msg : Msg) (st : StateRec) (g : Bool) :
    savesOf ((if g then [Event.notify msg] else []) ++ [Event.save st]) = [st] := by
  cases g <;> simp [savesOf]

theorem notifiesOf_run_shape (msg : Msg) (st : StateRec) (g : Bool) :
    notifiesOf ((if g then [Event.notify msg] else []) ++ [Event.save st]) =
      (if g then [msg] else []) := by
  cases g <;> simp [notifiesOf]

/-! ### The claims -/

/-- Claim C8 counterexample: `load_state` checks nothing beyond JSON
decoding, so a record that exists but violates the PersistedState schema is
returned without any error: the empty object lacks every schema field and a
record whose `last_count` is the string "x" is ill-typed, yet both load
fine.  Worse, the empty object's read-out equals the uninitialized default
(flag false, default ids and count), and the run on that read-out takes the
baseline branch and saves a fresh record — an existing record is silently
reset, contrary to the claim. -/
theorem C8_counterexample :
    load_state (.content (.jobj [])) = .ok (.jobj []) ∧
    load_state (.content (.jobj [("initialized", .jbool true),
        ("seen_ids", .jlist [.jstr "5"]), ("last_count", .jstr "x")])) =
      .ok (.jobj [("initialized", .jbool true),
        ("seen_ids", .jlist [.jstr "5"]), ("last_count", .jstr "x")]) ∧
    readRun (.jobj []) = .ok (.jlist [], .jnull, false) ∧
    decodeIds? (.jlist []) = some [] ∧
    decodeCount? .jnull = some none ∧
    runMain ["7"] (some 1) ⟨false, [], none, none⟩ true 0 =
      ([.save ⟨true, ["7"], some 1, some 0⟩, .notify (.baseline 1)], none) :=
  ⟨rfl, rfl, rfl, rfl, rfl, rfl⟩

/-- Claim C8 amended: loading returns the default uninitialized value when
no prior record exists (the default dict reads out as flag false, empty
ids, absent count), and fails with the fatal corrupt-state error exactly
when a record exists but `json.load` rejects it; a record that decodes to
any JSON value — schema-conforming or not — is returned unchanged, never
replaced by the default, and its fields are then read leniently with
defaults (an attribute error only when the record is not an object), which
is what lets a schema-violating object trigger a silent re-baseline in the
run that follows. -/
theorem C8_amended :
    load_state .absent = .ok defaultStateJson ∧
    readRun defaultStateJson = .ok (.jlist [], .jnull, false) ∧
    decodeIds? (.jlist []) = some [] ∧
    decodeCount? .jnull = some none ∧
    load_state .invalidJson = .error .stateCorrupt ∧
    (∀ v, load_state (.content v) = .ok v) ∧
    (∀ fields, readRun (.jobj fields) =
      .ok (jLookupD fields "seen_ids" (.jlist []),
           jLookupD fields "last_count" .jnull,
           pyTruthy (jLookupD fields "initialized" (.jbool false)))) ∧
    readRun .jnull = .error .attributeError ∧
    (∀ b, readRun (.jbool b) = .error .attributeError) ∧
    (∀ n, readRun (.jint n) = .error .attributeError) ∧
    (∀ s, readRun (.jstr s) = .error .attributeError) ∧
    (∀ elems, readRun (.jlist elems) = .error .attributeError) :=
  ⟨rfl, rfl, rfl, rfl, rfl, fun _ => rfl, fun _ => rfl, rfl,
   fun _ => rfl, fun _ => rfl, fun _ => rfl, fun _ => rfl⟩

/-- Claim C5: a count change (old, new) is reported iff both counts are
present and numerically different; prior 5 / now 5 yields none, prior 5 /
now 7 yields (5, 7), and present-to-absent or absent-to-present transitions
yield none; moreover every update message a run emits carries exactly this
count-change value computed from the prior and snapshot counts. -/
theorem C5_count_change_gating :
    (∀ co cn p, countChange co cn = some p ↔
      co = some p.1 ∧ cn = some p.2 ∧ p.1 ≠ p.2) ∧
    countChange (some 5) (some 5) = none ∧
    countChange (some 5) (some 7) = some (5, 7) ∧
    countChange (some 5) none = none ∧
    countChange none (some 7) = none ∧
    (∀ ids_now count_now state notifyOk now cc a r,
      Event.notify (Msg.update cc a r) ∈ (runMain ids_now count_now state notifyOk now).1 →
      cc = countChange state.last_count count_now) := by
  refine ⟨?_, by decide, by decide, by decide, by decide, ?_⟩
  · intro co cn p
    rcases p with ⟨a, b⟩
    constructor
    · intro h
      rcases co with _ | co'
      · simp [countChange] at h
      · rcases cn with _ | cn'
        · simp [countChange] at h
        · have h' : (if cn' ≠ co' then some (co', cn') else none) = some (a, b) := h
          split at h'
          · rename_i hne
            injection h' with h2
            rw [Prod.mk.injEq] at h2
            obtain ⟨rfl, rfl⟩ := h2
            exact ⟨rfl, rfl, fun he => hne he.symm⟩
          · exact absurd h' (by simp)
    · rintro ⟨h1, h2, h3⟩
      rcases co with _ | co'
      · exact absurd h1 (by simp)
      · rcases cn with _ | cn'
        · exact absurd h2 (by simp)
        · injection h1 with h1'
          injection h2 with h2'
          rw [h1', h2']
          show (if b ≠ a then some (a, b) else none) = some (a, b)
          rw [if_pos (Ne.symm h3)]
  · intro ids_now count_now state notifyOk now cc a r h
    rw [runMain] at h
    by_cases hi : state.initialized
    · obtain ⟨new, rem, _, _, hm⟩ := notify_runUpdate (by rwa [if_pos hi] at h)
      rw [Msg.update.injEq] at hm
      exact hm.1
    · exact absurd (notify_runInit (by rwa [if_neg hi] at h)) (by simp)

/-- Claim C5 witness: a concrete initialized run whose update message carries
the count change computed from the prior count 1 and the snapshot count 2. -/
theorem C5_witness :
    Event.notify (Msg.update (some (1, 2)) ["2"] ["1"]) ∈
      (runMain ["2"] (some 2) ⟨true, ["1"], some 1, none⟩ true 0).1 ∧
    some (1, 2) = countChange (some 1) (some 2) := by
  refine ⟨by decide, ?_⟩
  exact C5_count_change_gating.2.2.2.2.2 ["2"] (some 2) ⟨true, ["1"], some 1, none⟩
    true 0 (some (1, 2)) ["2"] ["1"] (by decide)

/-- Claim C2 counterexample: with all three attempts failing, the loop also
sleeps after the third failure (2 * 3 = 6 time units) before re-raising the
last error, so the recorded waits are [2, 4, 6]: the failure on attempt 3 is
not immediate and a third wait does occur, contrary to the claim. -/
theorem C2_counterexample :
    fetch_html (fun i => (Except.error i : Except Nat String)) =
      ([2, 4, 6], Except.error (some 2)) ∧
    (fetch_html (fun i => (Except.error i : Except Nat String))).1 ≠ [2, 4] := by
  exact ⟨rfl, by decide⟩

/-- Claim C2 amended: the fetcher performs up to 3 sequential attempts,
waiting 2 units after a failure on attempt 1 and 4 units after a failure on
attempt 2 before retrying; a run failing on attempts 1 and 2 and succeeding
on attempt 3 returns the successful content after exactly those 2 waits; but
a failure on attempt 3 also waits 6 units before the run fails, so a run
failing all 3 attempts performs 3 waits (2, 4, 6) and then raises the last
failure's cause. -/
theorem C2_amended {E : Type} (att : Nat → Except E String) (t : String) (e0 e1 e2 : E) :
    (att 0 = .ok t → fetch_html att = ([], .ok t)) ∧
    (att 0 = .error e0 → att 1 = .ok t → fetch_html att = ([2], .ok t)) ∧
    (att 0 = .error e0 → att 1 = .error e1 → att 2 = .ok t →
      fetch_html att = ([2, 4], .ok t)) ∧
    (att 0 = .error e0 → att 1 = .error e1 → att 2 = .error e2 →
      fetch_html att = ([2, 4, 6], .error (some e2))) := by
  refine ⟨fun h0 => ?_, fun h0 h1 => ?_, fun h0 h1 h2 => ?_, fun h0 h1 h2 => ?_⟩
  · simp [fetch_html, fetchGo, h0]
  · simp [fetch_html, fetchGo, h0, h1]
  · simp [fetch_html, fetchGo, h0, h1, h2]
  · simp [fetch_html, fetchGo, h0, h1, h2]

/-- Claim C2 witness: the fail-fail-success scenario at a concrete attempt
function returns the content after exactly the two waits 2 and 4. -/
theorem C2_witness :
    fetch_html (fun i => if i < 2 then (Except.error i : Except Nat String) else .ok "page") =
      ([2, 4], .ok "page") :=
  (C2_amended (fun i => if i < 2 then (Except.error i : Except Nat String) else .ok "page")
    "page" 0 1 1).2.2.1 rfl rfl rfl

/-- Claim C1 counterexample: an initialized run with changes whose update
notification fails performs no save at all (the code calls `tg_send` before
`save_state` in the update branch, and the exception aborts the run), so the
subsequent load still returns the prior state, not one built from the
snapshot: prior ids 10, 11 / count 2; snapshot ids 11, 12, 13 / count 3. -/
theorem C1_counterexample :
    runMain ["11", "12", "13"] (some 3) ⟨true, ["10", "11"], some 2, none⟩ false 0 =
      ([.notify (.update (some (2, 3)) ["12", "13"] ["10"])], some .notifyError) ∧
    savesOf (runMain ["11", "12", "13"] (some 3)
      ⟨true, ["10", "11"], some 2, none⟩ false 0).1 = [] ∧
    loadAfter ⟨true, ["10", "11"], some 2, none⟩
        (runMain ["11", "12", "13"] (some 3)
          ⟨true, ["10", "11"], some 2, none⟩ false 0).1 =
      ⟨true, ["10", "11"], some 2, none⟩ := by
  refine ⟨?_, ?_, ?_⟩ <;> rfl

/-- Claim C1 amended: in an initialized run, the save is attempted exactly
once whenever the run dispatches no notification or the dispatched
notification succeeds (whether or not the report is empty); but the
notification is dispatched before the save, so when a notification is
dispatched and fails, the save is never attempted, the run aborts with the
notification error, and a subsequent load returns the prior state rather
than one built from the snapshot. -/
theorem C1_amended (ids_now : List String) (count_now : Option Int) (state : StateRec)
    (notifyOk : Bool) (now : Int)
    (hinit : state.initialized = true)
    (hall : allIntable (ids_now ++ state.seen_ids) = true) :
    (notifyOk = true ∨ hasPartsOf ids_now count_now state = false →
      savesOf (runMain ids_now count_now state notifyOk now).1 =
        [newStateOf ids_now count_now state now] ∧
      loadAfter state (runMain ids_now count_now state notifyOk now).1 =
        newStateOf ids_now count_now state now ∧
      (runMain ids_now count_now state notifyOk now).2 = none) ∧
    (notifyOk = false ∧ hasPartsOf ids_now count_now state = true →
      savesOf (runMain ids_now count_now state notifyOk now).1 = [] ∧
      loadAfter state (runMain ids_now count_now state notifyOk now).1 = state ∧
      (runMain ids_now count_now state notifyOk now).2 = some .notifyError) := by
  rw [runMain, if_pos hinit, runUpdate_eq notifyOk now hall]
  constructor
  · rintro (rfl | hg)
    · simp [savesOf_run_shape, loadAfter]
    · rw [hg]
      simp [loadAfter, savesOf]
  · rintro ⟨rfl, hg⟩
    rw [hg]
    simp [loadAfter, savesOf]

/-- Claim C1 witness: the same changed snapshot with a succeeding
notification saves exactly once and a subsequent load returns the state
built from the snapshot. -/
theorem C1_witness :
    (⟨true, ["10", "11"], some 2, none⟩ : StateRec).initialized = true ∧
    allIntable (["11", "12", "13"] ++ ["10", "11"]) = true ∧
    savesOf (runMain ["11", "12", "13"] (some 3)
      ⟨true, ["10", "11"], some 2, none⟩ true 0).1 =
      [⟨true, ["11", "12", "13"], some 3, some 0⟩] := by
  refine ⟨rfl, by decide, ?_⟩
  have h := ((C1_amended ["11", "12", "13"] (some 3)
    ⟨true, ["10", "11"], some 2, none⟩ true 0 rfl (by decide)).1 (Or.inl rfl)).1
  rw [h]
  decide

/-- Claim C4: a run whose prior state is uninitialized is a baseline run for
any snapshot (including an empty id set, covered since `ids_now` is
arbitrary): the trace is exactly one save of the record built from the
snapshot with `initialized` true and ids equal to the snapshot's ids,
followed by the one confirmation message with no added/removed lists and no
count comparison; and no run, on any input, ever saves a record with
`initialized` false, so the flag never reverts.  The hypothesis that
snapshot ids are digit strings reflects the extractor's `(\d+)` captures. -/
theorem C4_baseline_idempotence (ids_now : List String) (count_now : Option Int)
    (state : StateRec) (notifyOk : Bool) (now : Int)
    (hinit : state.initialized = false)
    (hdig : ∀ s ∈ ids_now, isDigitString s = true) :
    runMain ids_now count_now state notifyOk now =
      ([.save ⟨true, sortByInt ids_now, count_now, some now⟩,
        .notify (.baseline (count_now.getD (ids_now.length : Int)))],
       if notifyOk then none else some .notifyError) ∧
    (sortByInt ids_now).toFinset = ids_now.toFinset ∧
    (∀ ids2 cnt2 st2 nok2 now2 st,
      Event.save st ∈ (runMain ids2 cnt2 st2 nok2 now2).1 → st.initialized = true) := by
  refine ⟨?_, sortByInt_toFinset ids_now, ?_⟩
  · rw [runMain, if_neg (by simp [hinit]), runInit_eq _ _ _ (allIntable_of_digits hdig)]
  · intro ids2 cnt2 st2 nok2 now2 st h
    rw [runMain] at h
    by_cases hi : st2.initialized
    · obtain ⟨seen', _, hst⟩ := save_runUpdate (by rwa [if_pos hi] at h)
      rw [hst]
      exact hi
    · obtain ⟨seen', _, hst⟩ := save_runInit (by rwa [if_neg hi] at h)
      rw [hst]

/-- Claim C4 witness: a concrete uninitialized run over snapshot ids 3
saves the initialized record with those ids and sends the confirmation. -/
theorem C4_witness :
    (⟨false, [], none, none⟩ : StateRec).initialized = false ∧
    (∀ s ∈ ["3"], isDigitString s = true) ∧
    runMain ["3"] (some 1) ⟨false, [], none, none⟩ true 7 =
      ([.save ⟨true, ["3"], some 1, some 7⟩, .notify (.baseline 1)], none) := by
  refine ⟨rfl, by decide, ?_⟩
  have h := (C4_baseline_idempotence ["3"] (some 1) ⟨false, [], none, none⟩ true 7
    rfl (by decide)).1
  rw [h]
  decide

/-- Claim C6: the update notification is dispatched iff the run is
non-baseline and at least one of (count change present, added nonempty,
removed nonempty) holds, while a baseline run dispatches exactly one
confirmation notification unconditionally, even for an empty snapshot
(`ids_now` arbitrary, so the empty list is covered); dispatch here is the
`tg_send` attempt, recorded whether or not the transport succeeds. -/
theorem C6_notification_gating (ids_now : List String) (count_now : Option Int)
    (state : StateRec) (notifyOk : Bool) (now : Int)
    (hall : allIntable (ids_now ++ state.seen_ids) = true) :
    (state.initialized = false →
      notifiesOf (runMain ids_now count_now state notifyOk now).1 =
        [.baseline (count_now.getD (ids_now.length : Int))]) ∧
    (state.initialized = true →
      notifiesOf (runMain ids_now count_now state notifyOk now).1 =
        (if hasPartsOf ids_now count_now state then
          [updateMsg ids_now count_now state] else [])) := by
  constructor
  · intro hinit
    have h1 : allIntable ids_now = true :=
      allIntable_of_sub (fun s hs => List.mem_append.mpr (Or.inl hs)) hall
    rw [runMain, if_neg (by simp [hinit]), runInit_eq _ _ _ h1]
    simp [notifiesOf]
  · intro hinit
    rw [runMain, if_pos hinit, runUpdate_eq notifyOk now hall]
    by_cases hc : (hasPartsOf ids_now count_now state && !notifyOk) = true
    · rw [if_pos hc]
      rw [(Bool.and_eq_true _ _).mp hc |>.1]
      simp [notifiesOf]
    · rw [if_neg hc, notifiesOf_run_shape]

/-- Claim C6 witness: the empty-source baseline scenario: prior
uninitialized, snapshot with no ids and count 0; the notifier is called
exactly once, with the baseline confirmation. -/
theorem C6_witness :
    allIntable ([] ++ ([] : List String)) = true ∧
    notifiesOf (runMain [] (some 0) ⟨false, [], none, none⟩ true 3).1 =
      [Msg.baseline 0] := by
  refine ⟨by decide, ?_⟩
  have h := (C6_notification_gating [] (some 0) ⟨false, [], none, none⟩ true 3
    (by decide)).1 rfl
  rw [h]
  rfl

/-- Claim C7: an initialized run whose snapshot id set equals the prior id
set and whose snapshot count equals the prior count produces empty added and
removed lists and no count change, dispatches no notification (whatever the
transport would have done), and persists a record whose ids are the same set
and whose count is unchanged; only the checked-at epoch moves. -/
theorem C7_noop_stability (ids_now : List String) (count_now : Option Int)
    (state : StateRec) (notifyOk : Bool) (now : Int)
    (hinit : state.initialized = true)
    (hset : ids_now.toFinset = state.seen_ids.toFinset)
    (hcnt : count_now = state.last_count)
    (hall : allIntable ids_now = true) :
    newCandidates ids_now state.seen_ids.dedup = [] ∧
    removedCandidates ids_now state.seen_ids.dedup = [] ∧
    countChange state.last_count count_now = none ∧
    runMain ids_now count_now state notifyOk now =
      ([.save ⟨true, sortByInt ids_now, count_now, some now⟩], none) ∧
    (sortByInt ids_now).toFinset = state.seen_ids.toFinset := by
  have hall2 : allIntable (ids_now ++ state.seen_ids) = true := by
    refine allIntable_of_sub (fun s hs => ?_) hall
    rcases List.mem_append.mp hs with h | h
    · exact h
    · exact List.mem_toFinset.mp (by rw [hset]; exact List.mem_toFinset.mpr h)
  have hnew : newCandidates ids_now state.seen_ids.dedup = [] := newCandidates_eq_nil hset
  have hrem : removedCandidates ids_now state.seen_ids.dedup = [] :=
    removedCandidates_eq_nil hset
  have hcc : countChange state.last_count count_now = none := by
    rw [hcnt, countChange_self]
  have hg : hasPartsOf ids_now count_now state = false := by
    simp [hasPartsOf, addedSorted, removedSorted, hnew, hrem, hcc, sortByInt_nil]
  refine ⟨hnew, hrem, hcc, ?_, (sortByInt_toFinset ids_now).trans hset⟩
  rw [runMain, if_pos hinit, runUpdate_eq notifyOk now hall2, hg]
  simp [newStateOf, hinit]

/-- Claim C7 witness: prior ids 6, 5 with count 2, snapshot ids 5, 6 with
count 2 (equal as sets): one save with the same id set and count, no
notification attempt even though the transport would fail. -/
theorem C7_witness :
    (["5", "6"] : List String).toFinset = (["6", "5"] : List String).toFinset ∧
    runMain ["5", "6"] (some 2) ⟨true, ["6", "5"], some 2, some 1⟩ false 9 =
      ([.save ⟨true, ["5", "6"], some 2, some 9⟩], none) := by
  refine ⟨by decide, ?_⟩
  have h := (C7_noop_stability ["5", "6"] (some 2) ⟨true, ["6", "5"], some 2, some 1⟩
    false 9 rfl (by decide) rfl (by decide)).2.2.2.1
  rw [h]
  decide

/-- Claim C9: every state a run saves (baseline and update paths alike) has
its `seen_ids` written as a duplicate-free list sorted in ascending numeric
key order, given that the snapshot id list is duplicate-free (it enumerates
a Python set). -/
theorem C9_saved_ids_sorted (ids_now : List String) (count_now : Option Int)
    (state : StateRec) (notifyOk : Bool) (now : Int)
    (hnd : ids_now.Nodup) :
    ∀ st, Event.save st ∈ (runMain ids_now count_now state notifyOk now).1 →
      st.seen_ids.Pairwise (fun a b => intKey a ≤ intKey b) ∧ st.seen_ids.Nodup := by
  have key : ∀ seen', seenSorted? ids_now = some seen' →
      seen'.Pairwise (fun a b => intKey a ≤ intKey b) ∧ seen'.Nodup := by
    intro seen' hs
    rw [seenSorted?] at hs
    split at hs
    · cases hs
      exact ⟨List.Pairwise.nil, List.nodup_nil⟩
    · rw [sortByInt?] at hs
      split at hs
      · cases hs
        exact ⟨sortByInt_sorted ids_now, sortByInt_nodup hnd⟩
      · exact absurd hs (by simp)
  intro st h
  rw [runMain] at h
  by_cases hi : state.initialized
  · obtain ⟨seen', hs, hst⟩ := save_runUpdate (by rwa [if_pos hi] at h)
    rw [hst]
    exact key seen' hs
  · obtain ⟨seen', hs, hst⟩ := save_runInit (by rwa [if_neg hi] at h)
    rw [hst]
    exact key seen' hs

/-- Claim C9 witness: a baseline run over the out-of-order snapshot
enumeration 2, 1 saves the numerically sorted, duplicate-free list 1, 2. -/
theorem C9_witness :
    (["2", "1"] : List String).Nodup ∧
    Event.save ⟨true, ["1", "2"], none, some 0⟩ ∈
      (runMain ["2", "1"] none ⟨false, [], none, none⟩ true 0).1 ∧
    (["1", "2"] : List String).Pairwise (fun a b => intKey a ≤ intKey b) ∧
    (["1", "2"] : List String).Nodup := by
  refine ⟨by decide, by decide, ?_⟩
  exact C9_saved_ids_sorted ["2", "1"] none ⟨false, [], none, none⟩ true 0 (by decide)
    ⟨true, ["1", "2"], none, some 0⟩ (by decide)

/-- Claim C3 counterexample: two distinct identifiers can share a numeric
value ("7" and "07" both convert to 7, and the extractor's regex can produce
both); in an initialized run adding both, the reported added sequence keeps
the tied pair in enumeration order, so it is not strictly ascending in
numeric value as the claim asserts for every id set (no strictly ascending
enumeration of such a set exists at all). -/
theorem C3_counterexample :
    runMain ["7", "07"] none ⟨true, [], none, none⟩ true 0 =
      ([.notify (.update none ["7", "07"] []),
        .save ⟨true, ["7", "07"], none, some 0⟩], none) ∧
    intKey "7" = intKey "07" ∧
    ¬ StrictAscKey ["7", "07"] := by
  refine ⟨rfl, rfl, fun h => ?_⟩
  have hlt : intKey "7" < intKey "07" :=
    (List.pairwise_cons.mp h).1 "07" (List.mem_cons_self "07" [])
  exact absurd hlt (by decide)

/-- Claim C3 amended: in an initialized run, provided all identifiers are
numerically convertible and distinct identifiers have distinct numeric
values (ruling out aliases such as "7" / "07", which tie and break strict
ascension), the reported added sequence is the strictly ascending,
duplicate-free numeric enumeration of snapshot-minus-prior, the removed
sequence likewise of prior-minus-snapshot; every emitted update message
carries exactly these sequences, and the run with a succeeding transport
saves exactly one record holding the snapshot's id set (numerically sorted)
and the snapshot's count. -/
theorem C3_set_difference (ids_now : List String) (count_now : Option Int)
    (state : StateRec) (now : Int)
    (hinit : state.initialized = true)
    (hnd : ids_now.Nodup)
    (hall : allIntable (ids_now ++ state.seen_ids) = true)
    (hinj : ∀ a ∈ ids_now ++ state.seen_ids, ∀ b ∈ ids_now ++ state.seen_ids,
      intKey a = intKey b → a = b) :
    ((addedSorted ids_now state).toFinset =
        ids_now.toFinset \ state.seen_ids.toFinset ∧
      StrictAscKey (addedSorted ids_now state) ∧ (addedSorted ids_now state).Nodup) ∧
    ((removedSorted ids_now state).toFinset =
        state.seen_ids.toFinset \ ids_now.toFinset ∧
      StrictAscKey (removedSorted ids_now state) ∧ (removedSorted ids_now state).Nodup) ∧
    (∀ notifyOk cc a r,
      Event.notify (Msg.update cc a r) ∈ (runMain ids_now count_now state notifyOk now).1 →
      a = addedSorted ids_now state ∧ r = removedSorted ids_now state) ∧
    (savesOf (runMain ids_now count_now state true now).1 =
      [⟨true, sortByInt ids_now, count_now, some now⟩] ∧
      (sortByInt ids_now).toFinset = ids_now.toFinset ∧
      StrictAscKey (sortByInt ids_now)) := by
  have h1 : allIntable ids_now = true :=
    allIntable_of_sub (fun s hs => List.mem_append.mpr (Or.inl hs)) hall
  have h2 : allIntable state.seen_ids = true :=
    allIntable_of_sub (fun s hs => List.mem_append.mpr (Or.inr hs)) hall
  have hmemn : ∀ a ∈ newCandidates ids_now state.seen_ids.dedup,
      a ∈ ids_now ++ state.seen_ids := fun a ha =>
    List.mem_append.mpr (Or.inl (List.mem_filter.mp ha).1)
  have hmemr : ∀ a ∈ removedCandidates ids_now state.seen_ids.dedup,
      a ∈ ids_now ++ state.seen_ids := fun a ha =>
    List.mem_append.mpr (Or.inr (List.mem_dedup.mp (List.mem_filter.mp ha).1))
  have hinj1 : ∀ a ∈ newCandidates ids_now state.seen_ids.dedup,
      ∀ b ∈ newCandidates ids_now state.seen_ids.dedup, intKey a = intKey b → a = b :=
    fun a ha b hb => hinj a (hmemn a ha) b (hmemn b hb)
  have hinj2 : ∀ a ∈ removedCandidates ids_now state.seen_ids.dedup,
      ∀ b ∈ removedCandidates ids_now state.seen_ids.dedup, intKey a = intKey b → a = b :=
    fun a ha b hb => hinj a (hmemr a ha) b (hmemr b hb)
  have hinjnow : ∀ a ∈ ids_now, ∀ b ∈ ids_now, intKey a = intKey b → a = b :=
    fun a ha b hb => hinj a (List.mem_append.mpr (Or.inl ha)) b (List.mem_append.mpr (Or.inl hb))
  have hnew : allIntable (newCandidates ids_now state.seen_ids.dedup) = true :=
    allIntable_of_sub (fun s hs => (List.mem_filter.mp hs).1) h1
  have hrem : allIntable (removedCandidates ids_now state.seen_ids.dedup) = true :=
    allIntable_of_sub (fun s hs => List.mem_dedup.mp (List.mem_filter.mp hs).1) h2
  refine ⟨⟨?_, ?_, ?_⟩, ⟨?_, ?_, ?_⟩, ?_, ?_, sortByInt_toFinset ids_now,
    sortByInt_strictAsc hnd hinjnow⟩
  · rw [addedSorted, sortByInt_toFinset, newCandidates_toFinset]
  · exact sortByInt_strictAsc (newCandidates_nodup hnd _) hinj1
  · exact sortByInt_nodup (newCandidates_nodup hnd _)
  · rw [removedSorted, sortByInt_toFinset, removedCandidates_toFinset]
  · exact sortByInt_strictAsc (removedCandidates_nodup _ _) hinj2
  · exact sortByInt_nodup (removedCandidates_nodup _ _)
  · intro notifyOk cc a r h
    rw [runMain, if_pos hinit] at h
    obtain ⟨new, rem, hn, hr, hm⟩ := notify_runUpdate h
    rw [Msg.update.injEq] at hm
    obtain ⟨-, ha, hb⟩ := hm
    constructor
    · rw [ha]
      exact (Option.some.inj ((sortByInt?_eq_some hnew).symm.trans hn)).symm
    · rw [hb]
      exact (Option.some.inj ((sortByInt?_eq_some hrem).symm.trans hr)).symm
  · rw [runMain, if_pos hinit, runUpdate_eq true now hall]
    simp [savesOf_run_shape, newStateOf, hinit]

/-- Claim C3 witness: the end-to-end scenario: prior ids 10, 11 with count
2, snapshot ids 11, 12, 13 with count 3; added is 12, 13 and removed is 10,
both strictly ascending, and the saved record holds ids 11, 12, 13 with
count 3. -/
theorem C3_witness :
    addedSorted ["11", "12", "13"] ⟨true, ["10", "11"], some 2, none⟩ = ["12", "13"] ∧
    removedSorted ["11", "12", "13"] ⟨true, ["10", "11"], some 2, none⟩ = ["10"] ∧
    StrictAscKey (addedSorted ["11", "12", "13"] ⟨true, ["10", "11"], some 2, none⟩) ∧
    savesOf (runMain ["11", "12", "13"] (some 3)
      ⟨true, ["10", "11"], some 2, none⟩ true 0).1 =
      [⟨true, ["11", "12", "13"], some 3, some 0⟩] := by
  have h := C3_set_difference ["11", "12", "13"] (some 3)
    ⟨true, ["10", "11"], some 2, none⟩ 0 rfl (by decide) (by decide) (by decide)
  exact ⟨rfl, rfl, h.1.2.1, h.2.2.2.1⟩

/-- Claim C10 counterexample: the numeric conversion is Python's `int`,
which accepts more than decimal-digit strings: the stored identifier "+5" is
not a digit string, yet an initialized run that must sort it out of the
removed set succeeds without any conversion error; the claimed failure does
occur for genuinely non-numeric identifiers, as the stored id "abc" shows
(the run aborts with the conversion error before any event). -/
theorem C10_counterexample :
    isDigitString "+5" = false ∧
    runMain ["7"] none ⟨true, ["+5"], none, none⟩ true 0 =
      ([.notify (.update none ["7"] ["+5"]), .save ⟨true, ["7"], none, some 0⟩], none) ∧
    (runMain ["7"] none ⟨true, ["+5"], none, none⟩ true 0).2 ≠ some RunErr.valueError ∧
    runMain ["7"] none ⟨true, ["abc"], none, none⟩ true 0 = ([], some RunErr.valueError) := by
  exact ⟨rfl, rfl, by decide, rfl⟩

/-- Claim C10 amended: the diff-and-sort step is partial, failing with the
conversion error exactly when some identifier it must sort is rejected by
the numeric conversion (which accepts optional whitespace, an optional sign
and underscore-grouped digits beyond plain digit strings); every decimal
digit string converts, so under the precondition that all stored and
snapshot identifiers are digit strings, all three sorts succeed and no run
ends in the conversion error. -/
theorem C10_digit_precondition (ids_now : List String) (count_now : Option Int)
    (state : StateRec) (notifyOk : Bool) (now : Int)
    (hdig : ∀ s ∈ ids_now ++ state.seen_ids, isDigitString s = true) :
    (sortByInt? (newCandidates ids_now state.seen_ids.dedup)).isSome = true ∧
    (sortByInt? (removedCandidates ids_now state.seen_ids.dedup)).isSome = true ∧
    (seenSorted? ids_now).isSome = true ∧
    (runMain ids_now count_now state notifyOk now).2 ≠ some RunErr.valueError := by
  have hall : allIntable (ids_now ++ state.seen_ids) = true := allIntable_of_digits hdig
  have h1 : allIntable ids_now = true :=
    allIntable_of_sub (fun s hs => List.mem_append.mpr (Or.inl hs)) hall
  have h2 : allIntable state.seen_ids = true :=
    allIntable_of_sub (fun s hs => List.mem_append.mpr (Or.inr hs)) hall
  have hnew : allIntable (newCandidates ids_now state.seen_ids.dedup) = true :=
    allIntable_of_sub (fun s hs => (List.mem_filter.mp hs).1) h1
  have hrem : allIntable (removedCandidates ids_now state.seen_ids.dedup) = true :=
    allIntable_of_sub (fun s hs => List.mem_dedup.mp (List.mem_filter.mp hs).1) h2
  refine ⟨by rw [sortByInt?_eq_some hnew]; rfl, by rw [sortByInt?_eq_some hrem]; rfl,
    by rw [seenSorted?_eq_some h1]; rfl, ?_⟩
  rw [runMain]
  by_cases hi : state.initialized
  · rw [if_pos hi, runUpdate_eq notifyOk now hall]
    by_cases hc : (hasPartsOf ids_now count_now state && !notifyOk) = true
    · rw [if_pos hc]
      simp
    · rw [if_neg hc]
      simp
  · rw [if_neg hi, runInit_eq _ _ _ h1]
    cases notifyOk <;> simp

/-- Claim C10 witness: with the digit-string precondition holding for the
snapshot id 8 and the stored id 9, the run does not end in the conversion
error. -/
theorem C10_witness :
    (∀ s ∈ ["8"] ++ (⟨true, ["9"], none, none⟩ : StateRec).seen_ids,
      isDigitString s = true) ∧
    (runMain ["8"] none ⟨true, ["9"], none, none⟩ true 0).2 ≠ some RunErr.valueError := by
  refine ⟨by decide, ?_⟩
  exact (C10_digit_precondition ["8"] none ⟨true, ["9"], none, none⟩ true 0 (by decide)).2.2.2
